import Mathlib

/-!
Verification development for the IonMC Minecraft server manager.

The supervisor (`src/server/ionmc/MinecraftServer.ts`) is embedded as a pure
state machine: the mutable class fields become a `ServerState` record, event
emission becomes an explicit event list, and `throw` becomes `Except.error`.
The Sequelize persistence model (`updateStatus`) is embedded as a pure
function on a `DbState` record.  Times are modelled as natural-number
millisecond clocks passed in explicitly; the TPS field (a JS float obtained
via `parseFloat`) is stored as its raw captured text instead of a number.
-/

namespace IonMC

/-- Lifecycle status of the supervisor (`ServerStatus['status']`). -/
inductive Status
  | stopped
  | starting
  | running
  | stopping
  | crashed
deriving DecidableEq, Repr

/-- Events emitted by the supervisor via its EventEmitter interface.
`scheduledStart` records the `setTimeout(() => this.start(), 5000)` that
`handleProcessExit` installs for an auto-restart attempt. -/
inductive Event
  | startingEv
  | stoppingEv
  | stoppedEv (exitCode : Int)
  | crashedEv (exitCode : Int)
  | startedEv
  | playerJoin (name : String)
  | playerLeave (name : String)
  | statusChange (oldStatus newStatus : Status)
  | outputEv (line : String)
  | commandEv (command : String)
  | errorEv (message : String)
  | scheduledStart (delayMs : Nat)
deriving DecidableEq, Repr

/-- The mutable fields of the `MinecraftServer` class.  `hasProcess` models
`childProcess !== null`; `exitListeners` counts the listeners currently
registered for the child process exit event (one from
`setupProcessHandlers`, plus one more each time a graceful `stop()` runs):
all of them call `handleProcessExit` when the process exits.  `tpsRaw` holds
the raw text captured by the TPS pattern (the source stores
`parseFloat` of it). -/
structure ServerState where
  id : String
  name : String
  status : Status
  hasProcess : Bool
  exitListeners : Nat
  startTime : Option Nat
  players : List String
  maxPlayers : Nat
  version : String
  tpsRaw : String
  outputBuffer : List String
  maxOutputBuffer : Nat
  autoRestart : Bool
  restartAttempts : Nat
  maxRestartAttempts : Nat
deriving DecidableEq, Repr

/-- Errors thrown by `start()` (`throw new Error(...)` in the source). -/
inductive StartErr
  | invalidState
  | jarNotFound
deriving DecidableEq, Repr

instance {ε α : Type} [DecidableEq ε] [DecidableEq α] : DecidableEq (Except ε α) := fun
  | Except.error a, Except.error b =>
    if h : a = b then Decidable.isTrue (by rw [h])
    else Decidable.isFalse (by simp [h])
  | Except.error _, Except.ok _ => Decidable.isFalse (by simp)
  | Except.ok _, Except.error _ => Decidable.isFalse (by simp)
  | Except.ok a, Except.ok b =>
    if h : a = b then Decidable.isTrue (by rw [h])
    else Decidable.isFalse (by simp [h])

/-- The environment a `start()` call runs in: whether
`existsSync(join(serverPath, jarFile))` holds, whether `spawn` itself
throws, and the current time `Date.now()` in milliseconds. -/
structure StartEnv where
  jarExists : Bool
  spawnThrows : Bool
  now : Nat
deriving DecidableEq, Repr

/-- `setStatus`: update the status field, emitting `statusChange` only when
the status actually changes. -/
def setStatus (newStatus : Status) (s : ServerState) : ServerState × List Event :=
  if s.status = newStatus then (s, [])
  else ({ s with status := newStatus }, [Event.statusChange s.status newStatus])

/-- JS `Set.prototype.add` on an insertion-ordered duplicate-free list. -/
def setAdd (ps : List String) (name : String) : List String :=
  if ps.contains name then ps else ps ++ [name]

/-- JS `new Set(list)`: deduplicate keeping first occurrences. -/
def setOfList (l : List String) : List String :=
  l.foldl (fun acc n => if acc.contains n then acc else acc ++ [n]) []

/-- `addToOutputBuffer` on the buffer list: push, then if the length exceeds
the capacity keep only the last `cap` entries (`slice(-max)`). -/
def pushBounded (cap : Nat) (buf : List String) (line : String) : List String :=
  let b := buf ++ [line]
  if cap < b.length then b.drop (b.length - cap) else b

/-- `addToOutputBuffer` on the full state. -/
def addToOutputBuffer (line : String) (s : ServerState) : ServerState :=
  { s with outputBuffer := pushBounded s.maxOutputBuffer s.outputBuffer line }

/-- `getRecentOutput(lines)` returns `outputBuffer.slice(-lines)`.  JS
quirk: `slice(-0)` is `slice(0)`, the whole array. -/
def getRecentOutput (lines : Nat) (s : ServerState) : List String :=
  if lines = 0 then s.outputBuffer
  else s.outputBuffer.drop (s.outputBuffer.length - lines)

/-- `executeCommand`: refused unless a child process exists and the status
is `running`; otherwise the command is written to stdin (modelled as always
available) and a `command` event is emitted. -/
def executeCommand (command : String) (s : ServerState) : Bool × ServerState × List Event :=
  if s.hasProcess = false ∨ s.status ≠ Status.running then (false, s, [])
  else (true, s, [Event.commandEv command])

/-- `handleProcessExit`: clear the process handle, start time and player
set; exit code 0 goes to `stopped`, any other to `crashed`, where an
auto-restart `start()` is scheduled (5000 ms) while the attempt counter is
below the maximum. -/
def handleProcessExit (exitCode : Int) (s : ServerState) : ServerState × List Event :=
  let s1 : ServerState := { s with hasProcess := false, startTime := none, players := [] }
  if exitCode = 0 then
    let (s2, evs) := setStatus Status.stopped s1
    (s2, evs ++ [Event.stoppedEv exitCode])
  else
    let (s2, evs) := setStatus Status.crashed s1
    if s2.autoRestart ∧ s2.restartAttempts < s2.maxRestartAttempts then
      ({ s2 with restartAttempts := s2.restartAttempts + 1 },
        evs ++ [Event.crashedEv exitCode, Event.scheduledStart 5000])
    else
      (s2, evs ++ [Event.crashedEv exitCode])

/-- The `code || 0` coercion applied by every exit listener: a `null` exit
code (signal-terminated process) becomes `0`. -/
def jsOr (code : Option Int) : Int :=
  match code with
  | none => 0
  | some n => n

/-- Fire `n` registered exit listeners in registration order; each one calls
`handleProcessExit` on the then-current state. -/
def runListeners : Nat → Int → ServerState → ServerState × List Event
  | 0, _, s => (s, [])
  | n + 1, code, s =>
    let (s1, evs1) := handleProcessExit code s
    let (s2, evs2) := runListeners n code s1
    (s2, evs1 ++ evs2)

/-- A process exit event: every currently registered exit listener fires
with the same raw code, each applying the `code || 0` coercion. -/
def processExit (code : Option Int) (s : ServerState) : ServerState × List Event :=
  let (s1, evs) := runListeners s.exitListeners (jsOr code) s
  ({ s1 with exitListeners := 0 }, evs)

/-- `start()`.  Throwing is modelled as `Except.error` with the state
returned unchanged; the boolean results of the resolved promise are
`Except.ok`.  On a successful spawn one exit listener is registered by
`setupProcessHandlers`. -/
def start (env : StartEnv) (s : ServerState) :
    Except StartErr Bool × ServerState × List Event :=
  if s.status ≠ Status.stopped then (Except.error StartErr.invalidState, s, [])
  else if env.jarExists = false then (Except.error StartErr.jarNotFound, s, [])
  else
    let (s1, evs1) := setStatus Status.starting s
    let s2 : ServerState := { s1 with startTime := some env.now, restartAttempts := 0 }
    if env.spawnThrows then
      let (s3, evs3) := setStatus Status.crashed s2
      (Except.ok false, s3, evs1 ++ evs3 ++ [Event.errorEv "spawn failed"])
    else
      (Except.ok true, { s2 with hasProcess := true, exitListeners := 1 },
        evs1 ++ [Event.startingEv])

/-- `stop(force)`.  A graceful stop sends the `stop` command (refused,
since the status was just set to `stopping`) and registers a second exit
listener for the timeout bookkeeping. -/
def stop (force : Bool) (s : ServerState) : Bool × ServerState × List Event :=
  if s.status = Status.stopped then (true, s, [])
  else
    let (s1, evs1) := setStatus Status.stopping s
    let evsA := evs1 ++ [Event.stoppingEv]
    if s1.hasProcess = false then
      let (s2, evs2) := setStatus Status.stopped s1
      (true, s2, evsA ++ evs2)
    else if force then
      (true, s1, evsA)
    else
      let (_, s2, evs2) := executeCommand "stop" s1
      (true, { s2 with exitListeners := s2.exitListeners + 1 }, evsA ++ evs2)

/-! ### String utilities: JS trim, line splitting, substring search -/

/-- JS word character class `\w` = `[A-Za-z0-9_]`. -/
def isWordChar (c : Char) : Bool :=
  c.isAlphanum || c = '_'

/-- Whitespace removed by JS `String.prototype.trim` (the code points
relevant to server log lines; the ESC character `\x1B` is not whitespace). -/
def isJsSpace (c : Char) : Bool :=
  c = ' ' || c = '\t' || c = '\n' || c = '\r' || c = '\x0b' || c = '\x0c' ||
    c = Char.ofNat 160 || c = Char.ofNat 65279

/-- JS `trim()`: drop whitespace from both ends. -/
def jsTrim (s : List Char) : List Char :=
  ((s.dropWhile isJsSpace).reverse.dropWhile isJsSpace).reverse

/-- Match a literal at the head of the input, returning the remainder. -/
def stripLit : List Char → List Char → Option (List Char)
  | [], s => some s
  | _ :: _, [] => none
  | a :: as, b :: bs => if a = b then stripLit as bs else none

/-- Does the literal occur at the head of the input? -/
def beginsWith (lit s : List Char) : Bool :=
  (stripLit lit s).isSome

/-- JS `String.prototype.includes`: substring search. -/
def containsSub (needle : List Char) : List Char → Bool
  | [] => beginsWith needle []
  | c :: rest => beginsWith needle (c :: rest) || containsSub needle rest

/-- Worker for `splitLines`, structurally recursive on a character fuel
(each step consumes at least one character, so `s.length` fuel suffices). -/
def splitLinesFuel : Nat → List Char → List Char → List (List Char)
  | _, [], acc => [acc.reverse]
  | 0, s, acc => [acc.reverse ++ s]
  | fuel + 1, c :: rest, acc =>
    if c = '\n' then acc.reverse :: splitLinesFuel fuel rest []
    else if c = '\r' then
      match rest with
      | '\n' :: rest2 => acc.reverse :: splitLinesFuel fuel rest2 []
      | _ => splitLinesFuel fuel rest (c :: acc)
    else splitLinesFuel fuel rest (c :: acc)

/-- JS `data.split(/\r?\n/)`: split on `\r\n` or `\n`; a lone `\r` is kept. -/
def splitLines (s : List Char) : List (List Char) :=
  splitLinesFuel s.length s []

/-- Worker for `splitOnSep` (same fuel discipline). -/
def splitOnSepFuel (sep : List Char) : Nat → List Char → List Char → List (List Char)
  | _, [], acc => [acc.reverse]
  | 0, s, acc => [acc.reverse ++ s]
  | fuel + 1, c :: rest, acc =>
    match stripLit sep (c :: rest) with
    | some rest2 => acc.reverse :: splitOnSepFuel sep fuel rest2 []
    | none => splitOnSepFuel sep fuel rest (c :: acc)

/-- JS `String.prototype.split` with a non-empty literal separator. -/
def splitOnSep (sep s : List Char) : List (List Char) :=
  splitOnSepFuel sep s.length s []

/-- The ANSI escape character `\u001B`. -/
def escChar : Char := '\x1b'

/-- After an ESC character, try to consume `[[0-9;]*[mGKF]` and return the
remainder; the character classes are disjoint, so the greedy `[0-9;]*` run
needs no backtracking. -/
def afterEscSeq (l : List Char) : Option (List Char) :=
  match l with
  | '[' :: rest =>
    match rest.dropWhile (fun c => c.isDigit || c = ';') with
    | c :: tail =>
      if c = 'm' || c = 'G' || c = 'K' || c = 'F' then some tail else none
    | [] => none
  | _ => none

/-- Worker for `stripAnsi` (fuel = character count; every step consumes at
least one character). -/
def stripAnsiFuel : Nat → List Char → List Char
  | _, [] => []
  | 0, s => s
  | fuel + 1, c :: rest =>
    if c = escChar then
      match afterEscSeq rest with
      | some rest2 => stripAnsiFuel fuel rest2
      | none => c :: stripAnsiFuel fuel rest
    else c :: stripAnsiFuel fuel rest

/-- `line.replace(/\u001B\[[0-9;]*[mGKF]/g, '')`. -/
def stripAnsi (s : List Char) : List Char :=
  stripAnsiFuel s.length s

/-- JS `parseInt` on a non-empty run of decimal digits. -/
def parseDigits (ds : List Char) : Nat :=
  ds.foldl (fun n c => n * 10 + (c.toNat - 48)) 0

/-! ### Regex matchers

Each regex of `parseLogLine` is embedded as a dedicated scanner with JS
leftmost-match semantics.  In `(\w+) joined the game` (and the `left the
game` twin) the literal begins with a space, which is not a word character,
so the greedy `\w+` never needs to backtrack: at each start position only
the maximal word run can be followed by the literal. -/

/-- Leftmost match of `(\w+)<lit>`, returning the captured word. -/
def matchWordBefore (lit : List Char) : List Char → Option String
  | [] => none
  | c :: rest =>
    let run := (c :: rest).takeWhile isWordChar
    if run.isEmpty then matchWordBefore lit rest
    else if beginsWith lit ((c :: rest).drop run.length) then some (String.mk run)
    else matchWordBefore lit rest

/-- Try `There are (\d+) of a max of (\d+) players online: (.+)` anchored at
the current position.  Every literal after a greedy `\d+` begins with a
space, and the final `(.+)` (greedy, `.` excluding line terminators) runs to
the end of the line. -/
def tryPlayerListAt (s : List Char) : Option (List Char × List Char × List Char) :=
  match stripLit ("There are ".toList) s with
  | none => none
  | some s1 =>
    let d1 := s1.takeWhile Char.isDigit
    if d1.isEmpty then none else
    match stripLit (" of a max of ".toList) (s1.drop d1.length) with
    | none => none
    | some s2 =>
      let d2 := s2.takeWhile Char.isDigit
      if d2.isEmpty then none else
      match stripLit (" players online: ".toList) (s2.drop d2.length) with
      | none => none
      | some s3 =>
        let rest := s3.takeWhile (fun c => c ≠ '\n' && c ≠ '\r')
        if rest.isEmpty then none else some (d1, d2, rest)

/-- Leftmost match of the player-list pattern. -/
def matchPlayerList : List Char → Option (List Char × List Char × List Char)
  | [] => none
  | c :: rest =>
    match tryPlayerListAt (c :: rest) with
    | some r => some r
    | none => matchPlayerList rest

/-- Try a literal followed by a greedy non-empty character-class run
(`TPS: ([\d.]+)` and the version pattern have this shape; the run is at the
end of the pattern, so the greedy maximal run is the capture). -/
def tryLitThenClass (lit : List Char) (cls : Char → Bool) (s : List Char) :
    Option (List Char) :=
  match stripLit lit s with
  | none => none
  | some s1 =>
    let run := s1.takeWhile cls
    if run.isEmpty then none else some run

/-- Leftmost match of a literal followed by a character-class run. -/
def scanLitThenClass (lit : List Char) (cls : Char → Bool) : List Char → Option (List Char)
  | [] => none
  | c :: rest =>
    match tryLitThenClass lit cls (c :: rest) with
    | some r => some r
    | none => scanLitThenClass lit cls rest

/-! ### The log-line parser

`parseLogLine` strips ANSI escapes and trims, then runs every pattern in
source order on the cleaned line (the branches are independent `if`s, not
`else if`s).  Each branch of the source function becomes a step
`ServerState → ServerState × List Event`; steps are chained with `andStep`,
which threads the state and concatenates the emitted events in order. -/

/-- Run one step after another, threading state and appending events. -/
def andStep (f g : ServerState → ServerState × List Event) (s : ServerState) :
    ServerState × List Event :=
  ((g (f s).1).1, (f s).2 ++ (g (f s).1).2)

/-- Server-started detection (`Done (`…`s)! For help, type "help"`). -/
def doneStep (cl : List Char) (s : ServerState) : ServerState × List Event :=
  if containsSub ("Done (".toList) cl &&
      containsSub ("s)! For help, type \"help\"".toList) cl then
    ((setStatus Status.running s).1, (setStatus Status.running s).2 ++ [Event.startedEv])
  else (s, [])

/-- Player-join detection (`(\w+) joined the game`). -/
def joinStep (cl : List Char) (s : ServerState) : ServerState × List Event :=
  match matchWordBefore (" joined the game".toList) cl with
  | some playerName =>
    ({ s with players := setAdd s.players playerName }, [Event.playerJoin playerName])
  | none => (s, [])

/-- Player-leave detection (`(\w+) left the game`). -/
def leaveStep (cl : List Char) (s : ServerState) : ServerState × List Event :=
  match matchWordBefore (" left the game".toList) cl with
  | some playerName =>
    ({ s with players := s.players.filter (fun p => !(p = playerName)) },
      [Event.playerLeave playerName])
  | none => (s, [])

/-- Player-list response: replace the max-player ceiling and the entire
player set (`new Set` of the split names that trim to non-empty). -/
def playerListStep (cl : List Char) (s : ServerState) : ServerState × List Event :=
  match matchPlayerList cl with
  | some (_, d2, names) =>
    let playerNames :=
      ((splitOnSep (", ".toList) names).map String.mk).filter
        (fun n => !(jsTrim n.toList).isEmpty)
    ({ s with maxPlayers := parseDigits d2, players := setOfList playerNames }, [])
  | none => (s, [])

/-- TPS monitoring (`TPS: ([\d.]+)`); the raw capture is stored. -/
def tpsStep (cl : List Char) (s : ServerState) : ServerState × List Event :=
  match scanLitThenClass ("TPS: ".toList) (fun c => c.isDigit || c = '.') cl with
  | some run => ({ s with tpsRaw := String.mk run }, [])
  | none => (s, [])

/-- Server version detection. -/
def versionStep (cl : List Char) (s : ServerState) : ServerState × List Event :=
  match scanLitThenClass ("Starting minecraft server version ".toList)
      (fun c => isWordChar c || c = '.' || c = '-') cl with
  | some run => ({ s with version := String.mk run }, [])
  | none => (s, [])

/-- Error detection by substring. -/
def errorStep (cl : List Char) (s : ServerState) : ServerState × List Event :=
  if containsSub ("ERROR".toList) cl || containsSub ("FATAL".toList) cl ||
      containsSub ("Exception".toList) cl then
    (s, [Event.errorEv (String.mk cl)])
  else (s, [])

/-- All pattern branches of `parseLogLine`, in source order. -/
def lineSteps (cl : List Char) : ServerState → ServerState × List Event :=
  andStep (doneStep cl) (andStep (joinStep cl) (andStep (leaveStep cl)
    (andStep (playerListStep cl) (andStep (tpsStep cl)
      (andStep (versionStep cl) (errorStep cl))))))

/-- `parseLogLine`: clean the line, bail out if it is empty, then run all
pattern branches. -/
def parseLogLine (line : String) (s : ServerState) : ServerState × List Event :=
  if line = "" then (s, [])
  else if (jsTrim (stripAnsi line.toList)).isEmpty then (s, [])
  else lineSteps (jsTrim (stripAnsi line.toList)) s

/-- The loop body of `handleOutput` for one non-empty line: buffer the
trimmed line, parse it, and emit an `output` event (the source guards the
emission on the truthiness of the id, the line and the timestamp; the ISO
timestamp is always non-empty). -/
def outputStep (acc : ServerState × List Event) (l : List Char) :
    ServerState × List Event :=
  let trimmedLine := String.mk (jsTrim l)
  let parsed := parseLogLine trimmedLine (addToOutputBuffer trimmedLine acc.1)
  let oevs :=
    if parsed.1.id ≠ "" ∧ trimmedLine ≠ "" then [Event.outputEv trimmedLine]
    else []
  (parsed.1, acc.2 ++ parsed.2 ++ oevs)

/-- `handleOutput`: split a stdout/stderr chunk on newlines, drop
whitespace-only lines, and fold the per-line body over the rest. -/
def handleOutput (data : String) (s : ServerState) : ServerState × List Event :=
  if data = "" then (s, [])
  else
    ((splitLines data.toList).filter (fun l => !(jsTrim l).isEmpty)).foldl
      outputStep (s, [])

/-- A freshly constructed supervisor (the constructor's field defaults). -/
def mkServer (id name : String) (autoRestart : Bool) : ServerState :=
  { id := id
    name := name
    status := Status.stopped
    hasProcess := false
    exitListeners := 0
    startTime := none
    players := []
    maxPlayers := 20
    version := "Unknown"
    tpsRaw := "20.0"
    outputBuffer := []
    maxOutputBuffer := 1000
    autoRestart := autoRestart
    restartAttempts := 0
    maxRestartAttempts := 3 }

end IonMC

namespace DbModel

/-- Persisted status values of the Sequelize `MinecraftServer` model. -/
inductive DbStatus
  | stopped
  | starting
  | running
  | stopping
  | crashed
  | creating
  | error
deriving DecidableEq, Repr

/-- The persisted lifecycle fields of the Sequelize model (timestamps in
milliseconds since epoch, `totalUptime` in seconds). -/
structure DbState where
  status : DbStatus
  lastStarted : Option Nat
  lastStopped : Option Nat
  totalUptime : Nat
deriving DecidableEq, Repr

/-- `MinecraftServer#updateStatus(newStatus)` with `now = new Date()`:
on an exact `running → stopped` transition record `lastStopped` and add the
floored elapsed seconds since `lastStarted` to `totalUptime`; on a
`(not running) → running` transition record `lastStarted`; always store the
new status. -/
def updateStatus (now : Nat) (newStatus : DbStatus) (db : DbState) : DbState :=
  let db :=
    if db.status = DbStatus.running ∧ newStatus = DbStatus.stopped then
      let db := { db with lastStopped := some now }
      match db.lastStarted with
      | some t => { db with totalUptime := db.totalUptime + (now - t) / 1000 }
      | none => db
    else if db.status ≠ DbStatus.running ∧ newStatus = DbStatus.running then
      { db with lastStarted := some now }
    else db
  { db with status := newStatus }

/-- The status updates performed by `setupServerEventListeners` in the
server manager: each supervisor event is forwarded to
`serverInstance.updateStatus` with the corresponding persisted status. -/
def applyStatusEvent (now : Nat) (ev : IonMC.Event) (db : DbState) : DbState :=
  match ev with
  | IonMC.Event.startedEv => updateStatus now DbStatus.running db
  | IonMC.Event.stoppedEv _ => updateStatus now DbStatus.stopped db
  | IonMC.Event.crashedEv _ => updateStatus now DbStatus.crashed db
  | IonMC.Event.startingEv => updateStatus now DbStatus.starting db
  | IonMC.Event.stoppingEv => updateStatus now DbStatus.stopping db
  | IonMC.Event.errorEv _ => updateStatus now DbStatus.error db
  | _ => db

end DbModel

/-!
Lemmas: helper lemmas about the ring buffer, JS trimming and the parser, used by
the claim theorems below.
-/

namespace IonMC

/-- The last `n` elements of a list, in order. -/
def lastN {α : Type} (n : Nat) (l : List α) : List α :=
  l.drop (l.length - n)

theorem length_lastN_le {α : Type} (n : Nat) (l : List α) : (lastN n l).length ≤ n := by
  simp [lastN]; omega

theorem pushBounded_eq_lastN (cap : Nat) (buf : List String) (line : String) :
    pushBounded cap buf line = lastN cap (buf ++ [line]) := by
  show (if cap < (buf ++ [line]).length then
      (buf ++ [line]).drop ((buf ++ [line]).length - cap) else (buf ++ [line])) =
    lastN cap (buf ++ [line])
  split
  · rfl
  · next h =>
    unfold lastN
    have h0 : (buf ++ [line]).length - cap = 0 := by omega
    rw [h0, List.drop_zero]

theorem lastN_append_right {α : Type} (p z : List α) (n : Nat) (h : n ≤ z.length) :
    lastN n (p ++ z) = lastN n z := by
  unfold lastN
  have h2 : (p ++ z).length - n = p.length + (z.length - n) := by
    simp [List.length_append]; omega
  rw [h2, List.drop_append]

theorem lastN_of_length_le {α : Type} (n : Nat) (l : List α) (h : l.length ≤ n) :
    lastN n l = l := by
  unfold lastN
  have h0 : l.length - n = 0 := by omega
  rw [h0, List.drop_zero]

theorem lastN_append_lastN (cap : Nat) (x y : List String) :
    lastN cap (lastN cap x ++ y) = lastN cap (x ++ y) := by
  by_cases hx : x.length ≤ cap
  · rw [lastN_of_length_le cap x hx]
  · have h2 : cap ≤ (x.drop (x.length - cap) ++ y).length := by
      simp [List.length_append, List.length_drop]
      omega
    conv_rhs =>
      rw [← List.take_append_drop (x.length - cap) x, List.append_assoc,
        lastN_append_right _ _ _ h2]
    rfl

theorem foldl_pushBounded (cap : Nat) (ls : List String) (x : List String) :
    ls.foldl (pushBounded cap) (lastN cap x) = lastN cap (x ++ ls) := by
  induction ls generalizing x with
  | nil => simp
  | cons l ls ih =>
    rw [List.foldl_cons, pushBounded_eq_lastN, lastN_append_lastN, ih]
    simp

theorem foldl_pushBounded_nil (cap : Nat) (ls : List String) :
    ls.foldl (pushBounded cap) [] = lastN cap ls := by
  have h0 : lastN cap ([] : List String) = [] := by simp [lastN]
  have h := foldl_pushBounded cap ls []
  rw [h0] at h
  simpa using h

theorem mem_pushBounded {cap : Nat} {buf : List String} {line x : String}
    (h : x ∈ pushBounded cap buf line) : x ∈ buf ∨ x = line := by
  rw [pushBounded_eq_lastN] at h
  have h2 : x ∈ buf ++ [line] := List.drop_subset _ _ h
  simpa using h2

theorem foldl_addToOutputBuffer (ls : List String) (s : ServerState) :
    (ls.foldl (fun st l => addToOutputBuffer l st) s).outputBuffer =
      ls.foldl (pushBounded s.maxOutputBuffer) s.outputBuffer ∧
    (ls.foldl (fun st l => addToOutputBuffer l st) s).maxOutputBuffer =
      s.maxOutputBuffer := by
  induction ls generalizing s with
  | nil => exact ⟨rfl, rfl⟩
  | cons l ls ih =>
    simp only [List.foldl_cons]
    have h := ih (addToOutputBuffer l s)
    simpa [addToOutputBuffer] using h

theorem dropWhile_append_single (p : Char → Bool) (l : List Char) (c : Char)
    (hc : p c = false) :
    ∃ t, (l ++ [c]).dropWhile p = t ++ [c] := by
  induction l with
  | nil => exact ⟨[], by simp [List.dropWhile_cons, hc]⟩
  | cons d l ih =>
    rw [List.cons_append, List.dropWhile_cons]
    split
    · exact ih
    · exact ⟨d :: l, rfl⟩

theorem dropWhile_cons_false {p : Char → Bool} {x : List Char} {c : Char}
    {rest : List Char} (h : x.dropWhile p = c :: rest) : p c = false := by
  induction x with
  | nil => simp at h
  | cons d t ih =>
    rw [List.dropWhile_cons] at h
    split at h
    · exact ih h
    · next hd =>
      cases h
      simpa using hd

theorem jsTrim_idem (x : List Char) : jsTrim (jsTrim x) = jsTrim x := by
  unfold jsTrim
  cases ha : x.dropWhile isJsSpace with
  | nil => simp
  | cons c rest =>
    have hc : isJsSpace c = false := dropWhile_cons_false ha
    obtain ⟨t, ht⟩ := dropWhile_append_single isJsSpace rest.reverse c hc
    have hrev : (c :: rest).reverse = rest.reverse ++ [c] := by simp
    rw [hrev, ht]
    have h1 : (t ++ [c]).reverse = c :: t.reverse := by simp
    rw [h1]
    have h2 : (c :: t.reverse).dropWhile isJsSpace = c :: t.reverse := by
      rw [List.dropWhile_cons, if_neg (by simp [hc])]
    rw [h2]
    have h3 : (c :: t.reverse).reverse = t ++ [c] := by simp
    rw [h3]
    have h4 : (t ++ [c]).dropWhile isJsSpace = t ++ [c] := by
      conv_lhs => rw [← ht]
      rw [← ht]
      exact List.dropWhile_idempotent isJsSpace (rest.reverse ++ [c])
    rw [h4]
    exact h1

theorem doneStep_outputBuffer (cl : List Char) (s : ServerState) :
    (doneStep cl s).1.outputBuffer = s.outputBuffer := by
  unfold doneStep setStatus
  split
  · split <;> rfl
  · rfl

theorem joinStep_outputBuffer (cl : List Char) (s : ServerState) :
    (joinStep cl s).1.outputBuffer = s.outputBuffer := by
  unfold joinStep
  split <;> rfl

theorem leaveStep_outputBuffer (cl : List Char) (s : ServerState) :
    (leaveStep cl s).1.outputBuffer = s.outputBuffer := by
  unfold leaveStep
  split <;> rfl

theorem playerListStep_outputBuffer (cl : List Char) (s : ServerState) :
    (playerListStep cl s).1.outputBuffer = s.outputBuffer := by
  unfold playerListStep
  split <;> rfl

theorem tpsStep_outputBuffer (cl : List Char) (s : ServerState) :
    (tpsStep cl s).1.outputBuffer = s.outputBuffer := by
  unfold tpsStep
  split <;> rfl

theorem versionStep_outputBuffer (cl : List Char) (s : ServerState) :
    (versionStep cl s).1.outputBuffer = s.outputBuffer := by
  unfold versionStep
  split <;> rfl

theorem errorStep_outputBuffer (cl : List Char) (s : ServerState) :
    (errorStep cl s).1.outputBuffer = s.outputBuffer := by
  unfold errorStep
  split <;> rfl

theorem andStep_outputBuffer (f g : ServerState → ServerState × List Event)
    (hf : ∀ s, (f s).1.outputBuffer = s.outputBuffer)
    (hg : ∀ s, (g s).1.outputBuffer = s.outputBuffer) (s : ServerState) :
    (andStep f g s).1.outputBuffer = s.outputBuffer := by
  unfold andStep
  rw [hg, hf]

theorem lineSteps_outputBuffer (cl : List Char) (s : ServerState) :
    (lineSteps cl s).1.outputBuffer = s.outputBuffer := by
  unfold lineSteps
  exact andStep_outputBuffer _ _ (doneStep_outputBuffer cl)
    (andStep_outputBuffer _ _ (joinStep_outputBuffer cl)
      (andStep_outputBuffer _ _ (leaveStep_outputBuffer cl)
        (andStep_outputBuffer _ _ (playerListStep_outputBuffer cl)
          (andStep_outputBuffer _ _ (tpsStep_outputBuffer cl)
            (andStep_outputBuffer _ _ (versionStep_outputBuffer cl)
              (errorStep_outputBuffer cl)))))) s

theorem parseLogLine_outputBuffer (line : String) (s : ServerState) :
    (parseLogLine line s).1.outputBuffer = s.outputBuffer := by
  unfold parseLogLine
  split
  · rfl
  · split
    · rfl
    · exact lineSteps_outputBuffer _ s

theorem outputStep_outputBuffer (acc : ServerState × List Event) (l : List Char) :
    (outputStep acc l).1.outputBuffer =
      pushBounded acc.1.maxOutputBuffer acc.1.outputBuffer (String.mk (jsTrim l)) := by
  show (parseLogLine (String.mk (jsTrim l))
      (addToOutputBuffer (String.mk (jsTrim l)) acc.1)).1.outputBuffer = _
  rw [parseLogLine_outputBuffer]
  rfl

theorem outputStep_trimmed (acc : ServerState × List Event) (l : List Char)
    (h : ∀ e ∈ acc.1.outputBuffer, jsTrim e.toList = e.toList) :
    ∀ e ∈ (outputStep acc l).1.outputBuffer, jsTrim e.toList = e.toList := by
  intro e he
  rw [outputStep_outputBuffer] at he
  rcases mem_pushBounded he with hold | hnew
  · exact h e hold
  · subst hnew
    show jsTrim (jsTrim l) = jsTrim l
    exact jsTrim_idem l

theorem foldl_outputStep_trimmed (ls : List (List Char)) :
    ∀ acc : ServerState × List Event,
      (∀ e ∈ acc.1.outputBuffer, jsTrim e.toList = e.toList) →
      ∀ e ∈ (ls.foldl outputStep acc).1.outputBuffer, jsTrim e.toList = e.toList := by
  induction ls with
  | nil => intro acc h; exact h
  | cons l ls ih =>
    intro acc h
    exact ih (outputStep acc l) (outputStep_trimmed acc l h)

end IonMC

/-!
Claims: one theorem (with counterexample and witness where needed) per claim.
-/

namespace IonMC

/-- A supervisor that is currently `running` with a live child process,
auto-restart enabled, no restart attempts used, and the spawn-time exit
listener registered. -/
def runningServer : ServerState :=
  { mkServer "srv" "nm" true with
      status := Status.running, hasProcess := true, exitListeners := 1,
      startTime := some 0 }

/-- A supervisor in the `running` state (auto-restart off). -/
def runningNoAR : ServerState :=
  { mkServer "srv" "nm" false with
      status := Status.running, hasProcess := true, exitListeners := 1,
      startTime := some 0 }

/-- A freshly constructed, stopped supervisor. -/
def stoppedServer : ServerState := mkServer "srv" "nm" false

/-- Claim C1 (code bug): after the first nonzero exit the supervisor is
`crashed` with the attempt counter at 1 and a restart `start()` scheduled —
but that `start()` throws `invalidState`, because `start()` requires the
status to be `stopped` while it is `crashed`, and leaves the state
unchanged.  No automatic restart can ever complete, so the counter never
reaches the maximum of 3 and "exactly 3 automatic restart attempts" are
never observed; the spec's restart policy is the evident intent of the
auto-restart machinery, which this state-gate (plus the
`restartAttempts = 0` reset inside `start()`) defeats. -/
theorem claim1_auto_restart_defeated :
    (processExit (some 1) runningServer).1.status = Status.crashed ∧
    (processExit (some 1) runningServer).1.restartAttempts = 1 ∧
    Event.scheduledStart 5000 ∈ (processExit (some 1) runningServer).2 ∧
    start ⟨true, false, 100⟩ (processExit (some 1) runningServer).1 =
      (Except.error StartErr.invalidState, (processExit (some 1) runningServer).1, []) := by
  decide

/-- Claim C2 (counterexample): calling `start()` on a `running` supervisor
throws (`Except.error`), it does not return a boolean failure result
(`Except.ok false` would be the resolved `false` promise); this refutes the
claim that the error is recovered locally into a boolean result. -/
theorem claim2_start_throws_cex :
    (start ⟨true, false, 0⟩ runningNoAR).1 = Except.error StartErr.invalidState ∧
    (start ⟨true, false, 0⟩ runningNoAR).1 ≠ Except.ok false ∧
    (start ⟨true, false, 0⟩ runningNoAR).1 ≠ Except.ok true := by
  decide

/-- Claim C2 (amended): for every supervisor whose status is not `stopped`,
`start()` fails by throwing an invalid-state error; no status or other
supervisor state is mutated and no event is emitted by the rejected call. -/
theorem claim2_invalid_start_rejected (env : StartEnv) (s : ServerState)
    (h : s.status ≠ Status.stopped) :
    start env s = (Except.error StartErr.invalidState, s, []) := by
  simp [start, h]

/-- Witness for the amended claim C2 at a concrete running supervisor. -/
theorem claim2_invalid_start_rejected_witness :
    start ⟨true, false, 0⟩ runningNoAR =
      (Except.error StartErr.invalidState, runningNoAR, []) :=
  claim2_invalid_start_rejected ⟨true, false, 0⟩ runningNoAR (by decide)

/-- Claim C3 (counterexample): `start()` on a stopped supervisor with the
jar file absent throws `jarNotFound` before any state change, so the status
stays `stopped` — it does not become `crashed` as the claim states. -/
theorem claim3_jar_missing_cex :
    start ⟨false, false, 0⟩ stoppedServer =
      (Except.error StartErr.jarNotFound, stoppedServer, []) ∧
    (start ⟨false, false, 0⟩ stoppedServer).2.1.status ≠ Status.crashed := by
  decide

/-- Claim C3 (amended): when `start()` is called on a stopped supervisor
and the jar file is absent, the attempt fails by throwing, the status
remains `stopped` (not `crashed`), no event is emitted and no retry is
scheduled; in that state `stop()` is a no-op returning success and a
subsequent `start()` is accepted (it passes the status gate and succeeds
once the jar exists). -/
theorem claim3_jar_missing_amended (env env2 : StartEnv) (s : ServerState)
    (hs : s.status = Status.stopped) (hjar : env.jarExists = false)
    (hjar2 : env2.jarExists = true) (hsp2 : env2.spawnThrows = false) :
    start env s = (Except.error StartErr.jarNotFound, s, []) ∧
    (start env s).2.1.status = Status.stopped ∧
    stop false s = (true, s, []) ∧
    (start env2 s).1 = Except.ok true := by
  refine ⟨?_, ?_, ?_, ?_⟩
  · simp [start, hs, hjar]
  · simp [start, hs, hjar]
  · simp [stop, hs]
  · simp [start, setStatus, hs, hjar2, hsp2]

/-- Witness for the amended claim C3 at a concrete stopped supervisor. -/
theorem claim3_jar_missing_amended_witness :
    start ⟨false, false, 0⟩ stoppedServer =
      (Except.error StartErr.jarNotFound, stoppedServer, []) ∧
    (start ⟨false, false, 0⟩ stoppedServer).2.1.status = Status.stopped ∧
    stop false stoppedServer = (true, stoppedServer, []) ∧
    (start ⟨true, false, 5⟩ stoppedServer).1 = Except.ok true :=
  claim3_jar_missing_amended ⟨false, false, 0⟩ ⟨true, false, 5⟩ stoppedServer
    rfl rfl rfl rfl

end IonMC

namespace DbModel

/-- A persisted row for a server currently recorded as `running` since
time 1000 ms with 7 s of accumulated uptime. -/
def runningRow : DbState :=
  { status := DbStatus.running, lastStarted := some 1000,
    lastStopped := none, totalUptime := 7 }

end DbModel

namespace IonMC

/-- A supervisor in `stopping` (graceful stop issued: two exit listeners)
with one player still tracked. -/
def stoppingServer : ServerState :=
  { mkServer "srv" "nm" false with
      status := Status.stopping, hasProcess := true, exitListeners := 2,
      startTime := some 1000, players := ["Alice"] }

/-- Claim C4 (code bug): when the process exits with code 0 while the
supervisor is in `stopping`, the supervisor does end `stopped` with the
player set cleared and the persistence collaborator does end recorded as
`stopped` — but the persisted `totalUptime` is NOT advanced: the `stopping`
event has already moved the row's status off `running`, and `updateStatus`
accumulates uptime only on an exact `running → stopped` transition, so the
elapsed (9000 − 1000) ms ÷ 1000 = 8 s the claim (and the spec's
"running→non-running" rule) requires are never added. -/
theorem claim4_uptime_not_accumulated :
    (processExit (some 0) stoppingServer).1.status = Status.stopped ∧
    (processExit (some 0) stoppingServer).1.players = [] ∧
    Event.stoppedEv 0 ∈ (processExit (some 0) stoppingServer).2 ∧
    (DbModel.applyStatusEvent 9000 (Event.stoppedEv 0)
        (DbModel.applyStatusEvent 5000 Event.stoppingEv DbModel.runningRow)).status =
      DbModel.DbStatus.stopped ∧
    (DbModel.applyStatusEvent 9000 (Event.stoppedEv 0)
        (DbModel.applyStatusEvent 5000 Event.stoppingEv DbModel.runningRow)).totalUptime =
      DbModel.runningRow.totalUptime ∧
    DbModel.runningRow.totalUptime ≠
      DbModel.runningRow.totalUptime + (9000 - 1000) / 1000 := by
  decide

/-- Claim C5: starting from an empty buffer with configured capacity `cap`,
(1) after appending any sequence of lines the ring buffer holds at most
`cap` lines (so it never exceeds its capacity at any point of any run), and
(2) once at least `cap` lines have been appended, `getRecentOutput cap`
returns exactly the last `cap` appended lines in order. -/
theorem claim5_ring_buffer_bounded (cap : Nat) (s0 : ServerState)
    (hbuf : s0.outputBuffer = []) (hcap : s0.maxOutputBuffer = cap) :
    (∀ ls : List String,
      ((ls.foldl (fun st l => addToOutputBuffer l st) s0).outputBuffer).length ≤ cap) ∧
    (∀ ls : List String, cap ≤ ls.length →
      getRecentOutput cap (ls.foldl (fun st l => addToOutputBuffer l st) s0) =
        lastN cap ls) := by
  constructor
  · intro ls
    rw [(foldl_addToOutputBuffer ls s0).1, hbuf, hcap, foldl_pushBounded_nil]
    exact length_lastN_le cap ls
  · intro ls hlen
    unfold getRecentOutput
    rw [(foldl_addToOutputBuffer ls s0).1, hbuf, hcap, foldl_pushBounded_nil]
    have hl : (lastN cap ls).length = cap := by
      simp [lastN]; omega
    split
    · rfl
    · rw [hl, Nat.sub_self, List.drop_zero]

/-- A supervisor configured with ring-buffer capacity 2 (for the C5
witness: 3 = 2 + 1 lines appended). -/
def capTwoServer : ServerState :=
  { mkServer "srv" "nm" false with maxOutputBuffer := 2 }

/-- Witness for claim C5 with capacity 2 and three appended lines: the
buffer is bounded by 2 and `getRecentOutput 2` returns the last two lines. -/
theorem claim5_ring_buffer_bounded_witness :
    ((["a", "b", "c"].foldl (fun st l => addToOutputBuffer l st)
        capTwoServer).outputBuffer).length ≤ 2 ∧
    getRecentOutput 2
      (["a", "b", "c"].foldl (fun st l => addToOutputBuffer l st) capTwoServer) =
      ["b", "c"] := by
  have h := claim5_ring_buffer_bounded 2 capTwoServer rfl rfl
  refine ⟨h.1 ["a", "b", "c"], ?_⟩
  rw [h.2 ["a", "b", "c"] (by decide)]
  rfl

/-- Claim C6: whatever the prior player set, parsing
`"Bob joined the game"` and then the player-list response
`"There are 1 of a max of 20 players online: Carol"` leaves the player set
exactly `["Carol"]` (a full replace, not `{Bob, Carol}`) and the
max-player ceiling at the parsed 20. -/
theorem claim6_player_list_full_replace (ps : List String) :
    (parseLogLine "There are 1 of a max of 20 players online: Carol"
        (parseLogLine "Bob joined the game"
          { stoppedServer with players := ps }).1).1.players = ["Carol"] ∧
    (parseLogLine "There are 1 of a max of 20 players online: Carol"
        (parseLogLine "Bob joined the game"
          { stoppedServer with players := ps }).1).1.maxPlayers = 20 := by
  constructor <;> rfl

/-- Claim C7: from an empty player set, parsing `"Alice joined the game"`
then `"Alice left the game"` leaves the player set empty, and the two parses
emit exactly one `playerJoin "Alice"` followed by exactly one
`playerLeave "Alice"` (and nothing else). -/
theorem claim7_join_leave_round_trip :
    (parseLogLine "Alice left the game"
        (parseLogLine "Alice joined the game" stoppedServer).1).1.players = [] ∧
    (parseLogLine "Alice joined the game" stoppedServer).2 ++
      (parseLogLine "Alice left the game"
        (parseLogLine "Alice joined the game" stoppedServer).1).2 =
      [Event.playerJoin "Alice", Event.playerLeave "Alice"] := by
  decide

/-- A line carrying ANSI colour escapes that survives trimming. -/
def ansiLine : String := "\x1b[32mhello world\x1b[0m"

/-- Claim C8 (counterexample): `handleOutput` buffers the ANSI-coloured
line verbatim — with its escape sequences intact — even though stripping
the escapes would change it; escape stripping therefore does not happen
before the line is buffered, refuting the claim. -/
theorem claim8_ansi_not_stripped_cex :
    (handleOutput ansiLine stoppedServer).1.outputBuffer = [ansiLine] ∧
    String.mk (stripAnsi ansiLine.toList) ≠ ansiLine := by
  decide

/-- Claim C8 (amended): every line stored in the output ring buffer (and
thus every line returned by `getRecentOutput`) is trimmed of surrounding
whitespace — buffered lines are fixed points of `jsTrim` — but ANSI escape
sequences are NOT stripped before buffering: stripping happens only inside
`parseLogLine`, before pattern matching. -/
theorem claim8_buffer_lines_trimmed (data : String) (s : ServerState)
    (h : ∀ e ∈ s.outputBuffer, jsTrim e.toList = e.toList) :
    ∀ e ∈ (handleOutput data s).1.outputBuffer, jsTrim e.toList = e.toList := by
  unfold handleOutput
  split
  · exact h
  · exact foldl_outputStep_trimmed _ (s, []) h

/-- Witness for the amended claim C8: the chunk `"  hi  \n"` buffers the
trimmed line `"hi"`, which is a fixed point of trimming. -/
theorem claim8_buffer_lines_trimmed_witness :
    jsTrim ("hi" : String).toList = ("hi" : String).toList :=
  claim8_buffer_lines_trimmed "  hi  \n" stoppedServer (by decide) "hi" (by decide)

/-- Claim C9: a child-process exit with a `null` exit code (signal
termination, e.g. after SIGKILL or the SIGTERM escalation) is coerced by
`code || 0` to `0` and takes the clean-exit path of `handleProcessExit`:
the status becomes `stopped`, exactly a `statusChange` (suppressed when
already `stopped`) and a `stopped {exitCode := 0}` event are emitted — so
never a `crashed` event nor a scheduled auto-restart — and the restart
attempt counter is untouched. -/
theorem claim9_null_exit_clean_path (s : ServerState) :
    jsOr none = 0 ∧
    (handleProcessExit (jsOr none) s).1.status = Status.stopped ∧
    (handleProcessExit (jsOr none) s).2 =
      (if s.status = Status.stopped then [] else
        [Event.statusChange s.status Status.stopped]) ++ [Event.stoppedEv 0] ∧
    (handleProcessExit (jsOr none) s).1.restartAttempts = s.restartAttempts := by
  by_cases h : s.status = Status.stopped <;>
    simp [handleProcessExit, setStatus, jsOr, h]

/-- Claim C10: a graceful `stop()` on a running supervisor registers a
second exit listener (two in total), so the single subsequent exit with
code 0 runs `handleProcessExit` twice: the `stopped` event is emitted twice
while `statusChange` fires only once (`setStatus` suppresses the no-change
second transition). -/
theorem claim10_double_exit_listener (s : ServerState)
    (h1 : s.status = Status.running) (h2 : s.hasProcess = true)
    (h3 : s.exitListeners = 1) :
    (stop false s).2.1.exitListeners = 2 ∧
    (processExit (some 0) (stop false s).2.1).2 =
      [Event.statusChange Status.stopping Status.stopped,
        Event.stoppedEv 0, Event.stoppedEv 0] := by
  obtain ⟨id, nm, status, hasProcess, el, st, pl, mp, v, t, ob, mob, ar, ra, mra⟩ := s
  dsimp only at h1 h2 h3
  subst h1
  subst h2
  subst h3
  constructor <;> rfl

/-- Witness for claim C10 at a concrete running supervisor. -/
theorem claim10_double_exit_listener_witness :
    (stop false runningNoAR).2.1.exitListeners = 2 ∧
    (processExit (some 0) (stop false runningNoAR).2.1).2 =
      [Event.statusChange Status.stopping Status.stopped,
        Event.stoppedEv 0, Event.stoppedEv 0] :=
  claim10_double_exit_listener runningNoAR rfl rfl rfl

end IonMC
